import Mathlib

/-!
# Verification of the meter-api rate-resolution and reading-synthesis engine

Shallow embedding of `src/mocks/data.ts` (and the types it uses from
`src/mocks/model.ts`). Instants are modelled as epoch milliseconds (`Int`),
matching the JavaScript `Date` numeric representation; JS `number` rates are
modelled as `ℚ` (all arithmetic the claims touch is exact in IEEE doubles).
`Math.sin` is an ambient pure library function; it is threaded through as an
explicit function parameter `msin : ℚ → ℚ`.
-/

namespace MeterApi

/-- The `days` union type from `model.ts`: `'weekdays' | 'weekends' | 'all'`. -/
inductive Days where
  | weekdays
  | weekends
  | all
deriving DecidableEq, Repr

/-- `TariffWindow` from `model.ts`: a time-of-use window. `days` is optional. -/
structure TariffWindow where
  fromHHmm : String
  toHHmm : String
  days : Option Days
  unitRateGBPPerKWh : ℚ
  label : Option String
deriving DecidableEq, Repr

/-- `Tariff` from `model.ts` (the `utility` tag is irrelevant to resolution and
elided). Window order matters: first match wins. -/
structure Tariff where
  id : String
  name : String
  standingChargeGBPPerDay : ℚ
  windows : List TariffWindow
deriving DecidableEq, Repr

/-- `CarbonCurveRule` from `model.ts`. -/
structure CarbonCurveRule where
  fromHHmm : String
  toHHmm : String
  days : Option Days
  gCO2PerKWh : ℚ
  label : Option String
deriving DecidableEq, Repr

/-- `CarbonProfile` from `model.ts`. -/
structure CarbonProfile where
  id : String
  name : String
  rules : List CarbonCurveRule
deriving DecidableEq, Repr

/-- `Reading` from `model.ts`; `ts` is the instant in epoch ms (the source
stores `toISOString()` of the same instant). -/
structure Reading where
  meterId : String
  ts : Int
  value : ℚ
  unit : String
deriving DecidableEq, Repr

/-- The `'electricity' | 'gas'` union in `generateReadings`' signature. -/
inductive GenUtility where
  | electricity
  | gas
deriving DecidableEq, Repr

/-! ## Calendar arithmetic

Epoch-millisecond arithmetic mirroring the JavaScript `Date` model
(proleptic Gregorian calendar, day 0 = 1970-01-01, a Thursday). -/

/-- Civil date to days since 1970-01-01 (the arithmetic `Date.UTC` performs). -/
def daysFromCivil (y m d : Int) : Int :=
  let y' := if m ≤ 2 then y - 1 else y
  let era := (if 0 ≤ y' then y' else y' - 399) / 400
  let yoe := y' - era * 400
  let doy := (153 * (if 2 < m then m - 3 else m + 9) + 2) / 5 + d - 1
  let doe := yoe * 365 + yoe / 4 - yoe / 100 + doy
  era * 146097 + doe - 719468

/-- Epoch milliseconds of a UTC civil date-time (what `Date.parse` of an
ISO-8601 `Z` string returns). -/
def epochMs (y m d hh mi : Int) : Int :=
  ((daysFromCivil y m d * 24 + hh) * 60 + mi) * 60000

/-- `Date.prototype.getUTCHours` on an epoch-ms instant. -/
def utcHours (t : Int) : Int :=
  t % 86400000 / 3600000

/-- `Date.prototype.getUTCDay` on an epoch-ms instant (0 = Sunday; day 0 of
the epoch was a Thursday, weekday 4). -/
def utcDay (t : Int) : Int :=
  (t / 86400000 + 4) % 7

/-! ## LocalTimeResolver (`getLocalYMDAndHM`)

The source delegates the timezone conversion to `Intl.DateTimeFormat`, an
environment API outside this repository, and recovers the weekday from the
local calendar date. -/

/-- Modelled from the spec: the timezone database behind `Intl.DateTimeFormat`
is not part of this repository, so a timezone identifier is modelled by the
UTC-offset (in minutes east) it assigns to each instant. -/
structure Timezone where
  offsetMinutesAt : Int → Int

/-- The local-time fields `getLocalYMDAndHM` returns that resolution uses:
2-digit local hour and minute, and the weekday of the local calendar date
(0 = Sunday .. 6 = Saturday). -/
structure LocalHM where
  HH : Int
  MM : Int
  weekday : Int
deriving DecidableEq, Repr

/-- `getLocalYMDAndHM`, restricted to the fields the resolvers read: shift the
instant by the zone offset, then read hour, minute and weekday off the shifted
clock. The source's weekday hack (re-parsing the formatted local wall-clock
string) yields exactly the weekday of the local calendar date. -/
def getLocalYMDAndHM (t : Int) (tz : Timezone) : LocalHM :=
  let localMs := t + tz.offsetMinutesAt t * 60000
  let msOfDay := localMs % 86400000
  { HH := msOfDay / 3600000
    MM := msOfDay % 3600000 / 60000
    weekday := (localMs / 86400000 + 4) % 7 }

/-- Modelled from the spec: `Europe/London` per the IANA database used by
`Intl`. In 2025 BST (UTC+1) runs from 2025-03-30T01:00Z to 2025-10-26T01:00Z;
GMT (UTC+0) otherwise. Modelled for 2025, the year all fixture instants use. -/
def europeLondon : Timezone :=
  ⟨fun t => if epochMs 2025 3 30 1 0 ≤ t ∧ t < epochMs 2025 10 26 1 0 then 60 else 0⟩

/-! ## Window matching (`hhmmToMinutes`, `dayMatches`, containment) -/

/-- `String.prototype.split(':')` on the character list of a string: splits at
every `':'`, keeping empty segments, exactly as in JavaScript. -/
def splitOnColon (cs : List Char) : List (List Char) :=
  match cs with
  | [] => [[]]
  | c :: rest =>
    match splitOnColon rest with
    | [] => [[]]
    | cur :: parts => if c = ':' then [] :: cur :: parts else (c :: cur) :: parts

/-- JavaScript `Number(...)` on a digit string: base-10 value, `0` for the
empty string. (On non-digit input JS yields `NaN`; no window in the
repository has one, and this model yields a junk integer there instead.) -/
def numberOfDigits (cs : List Char) : Int :=
  cs.foldl (fun acc c => acc * 10 + ((c.toNat : Int) - 48)) 0

/-- `hhmmToMinutes`: `split(':')`, `Number` each part, `h * 60 + m`. A string
with no `':'` leaves `m` undefined in the JS destructuring, making the result
`NaN`; that malformed case is modelled as 0. Every window in the repository
uses well-formed `"HH:mm"`. -/
def hhmmToMinutes (hhmm : String) : Int :=
  match (splitOnColon hhmm.toList).map numberOfDigits with
  | h :: m :: _ => h * 60 + m
  | _ => 0

/-- `dayMatches`: absent or `'all'` always passes; `'weekends'` passes on
weekday 0 or 6; `'weekdays'` on the rest. -/
def dayMatches (ruleDays : Option Days) (weekday : Int) : Bool :=
  if ruleDays = none ∨ ruleDays = some Days.all then true
  else
    let isWeekend := weekday == 0 || weekday == 6
    if ruleDays = some Days.weekends then isWeekend else !isWeekend

/-- The `inWindow` test shared by `unitRateFor` and `carbonFor`: half-open
`[fromM, toM)` when `fromM ≤ toM`, else the midnight-wrapping disjunction. -/
def containsMin (fromM toM minutes : Int) : Bool :=
  if fromM ≤ toM then minutes ≥ fromM && minutes < toM
  else minutes ≥ fromM || minutes < toM

/-- The loop body of `unitRateFor`: first window whose day filter and
containment test both pass, in list order. -/
def findRate (minutes weekday : Int) : List TariffWindow → Option ℚ
  | [] => none
  | w :: ws =>
    if dayMatches w.days weekday &&
        containsMin (hhmmToMinutes w.fromHHmm) (hhmmToMinutes w.toHHmm) minutes then
      some w.unitRateGBPPerKWh
    else
      findRate minutes weekday ws

/-- `unitRateFor`: resolve local hour/minute/weekday, scan the windows, and
fall back to `windows[windows.length - 1]` when nothing matched. On an empty
window list that index is absent and the JS property access throws; the model
returns `none` there. -/
def unitRateFor (t : Int) (tz : Timezone) (tariff : Tariff) : Option ℚ :=
  let l := getLocalYMDAndHM t tz
  let minutes := l.HH * 60 + l.MM
  match findRate minutes l.weekday tariff.windows with
  | some r => some r
  | none => tariff.windows.getLast?.map (·.unitRateGBPPerKWh)

/-- The loop body of `carbonFor`, identical to `findRate` up to field names. -/
def findCarbon (minutes weekday : Int) : List CarbonCurveRule → Option ℚ
  | [] => none
  | r :: rs =>
    if dayMatches r.days weekday &&
        containsMin (hhmmToMinutes r.fromHHmm) (hhmmToMinutes r.toHHmm) minutes then
      some r.gCO2PerKWh
    else
      findCarbon minutes weekday rs

/-- `carbonFor`: same shape as `unitRateFor` over a profile's rules. -/
def carbonFor (t : Int) (tz : Timezone) (profile : CarbonProfile) : Option ℚ :=
  let l := getLocalYMDAndHM t tz
  let minutes := l.HH * 60 + l.MM
  match findCarbon minutes l.weekday profile.rules with
  | some r => some r
  | none => profile.rules.getLast?.map (·.gCO2PerKWh)

/-! ## Fixture rule sets (`tariffs`, `carbonProfiles` from `data.ts`) -/

/-- The `tou_elec_v1` tariff. -/
def touElecV1 : Tariff :=
  { id := "tou_elec_v1"
    name := "TOU Electricity V1"
    standingChargeGBPPerDay := 4/10
    windows :=
      [ { fromHHmm := "07:00", toHHmm := "19:00", days := some Days.weekdays
          unitRateGBPPerKWh := 28/100, label := some "Peak (WD)" }
      , { fromHHmm := "19:00", toHHmm := "22:00", days := some Days.all
          unitRateGBPPerKWh := 24/100, label := some "Shoulder" }
      , { fromHHmm := "22:00", toHHmm := "07:00", days := some Days.all
          unitRateGBPPerKWh := 18/100, label := some "Off-peak" }
      , { fromHHmm := "07:00", toHHmm := "19:00", days := some Days.weekends
          unitRateGBPPerKWh := 22/100, label := some "Peak (WE)" } ] }

/-- The `flat_gas_v1` tariff. -/
def flatGasV1 : Tariff :=
  { id := "flat_gas_v1"
    name := "Flat Gas V1"
    standingChargeGBPPerDay := 25/100
    windows :=
      [ { fromHHmm := "00:00", toHHmm := "24:00", days := some Days.all
          unitRateGBPPerKWh := 7/100, label := some "Flat" } ] }

/-- `tariffs` from `data.ts`. -/
def tariffs : List Tariff := [touElecV1, flatGasV1]

/-- The `uk_grid_profile_v1` carbon profile. -/
def ukGridProfileV1 : CarbonProfile :=
  { id := "uk_grid_profile_v1"
    name := "UK Grid Profile (Demo)"
    rules :=
      [ { fromHHmm := "00:00", toHHmm := "06:00", days := some Days.all
          gCO2PerKWh := 180, label := some "Overnight" }
      , { fromHHmm := "06:00", toHHmm := "09:00", days := some Days.weekdays
          gCO2PerKWh := 320, label := some "WD AM Peak" }
      , { fromHHmm := "09:00", toHHmm := "16:00", days := some Days.weekdays
          gCO2PerKWh := 280, label := some "WD Day" }
      , { fromHHmm := "16:00", toHHmm := "19:00", days := some Days.weekdays
          gCO2PerKWh := 350, label := some "WD PM Peak" }
      , { fromHHmm := "19:00", toHHmm := "23:00", days := some Days.weekdays
          gCO2PerKWh := 240, label := some "WD Evening" }
      , { fromHHmm := "06:00", toHHmm := "23:00", days := some Days.weekends
          gCO2PerKWh := 220, label := some "WE Day" }
      , { fromHHmm := "23:00", toHHmm := "24:00", days := some Days.all
          gCO2PerKWh := 190, label := some "Late Night" } ] }

/-- `carbonProfiles` from `data.ts`. -/
def carbonProfiles : List CarbonProfile := [ukGridProfileV1]

/-! ## Reading synthesis (`range`, `generateReadings`) -/

/-- The loop of `range`: `for (let t = +startUTC; t <= +endUTC; t += stepMs)`.
`stepMs` is the step already scaled to milliseconds, positive at both call
sites (30 or 1440 minutes). -/
def rangeGo (t endUTC stepMs : Int) (hs : 0 < stepMs) : List Int :=
  if _h : t ≤ endUTC then t :: rangeGo (t + stepMs) endUTC stepMs hs else []
termination_by (endUTC + 1 - t).toNat
decreasing_by simp_wf; omega

/-- `range(startUTC, endUTC, stepMinutes)` from `data.ts`. `generateReadings`
only ever passes 30 or 1440 as the step; a non-positive step (whose JS loop
would not terminate) is modelled as the empty list. -/
def range (startUTC endUTC stepMinutes : Int) : List Int :=
  if hs : 0 < stepMinutes * 60000 then rangeGo startUTC endUTC (stepMinutes * 60000) hs
  else []

/-- `generateReadings` from `data.ts`. `msin` is JavaScript's pure `Math.sin`
library function, passed in as a parameter; `fromMs`/`toMs` are the parsed
`fromISO`/`toISO` instants. Electricity readings get a base load plus a sine
diurnal cycle plus a daytime bump; gas readings a weekly Monday bump. -/
def generateReadings (msin : ℚ → ℚ) (meterId : String) (utility : GenUtility)
    (fromMs toMs : Int) : List Reading :=
  let isElectric := utility = GenUtility.electricity
  let step : Int := if isElectric then 30 else 1440
  let points := range fromMs toMs step
  points.enum.map fun p =>
    { meterId := meterId
      ts := p.2
      value :=
        if isElectric then
          22/10 + msin ((p.1 : ℚ) / 5) * (6/10) +
            (if 7 ≤ utcHours p.2 ∧ utcHours p.2 < 19 then 8/10 else 0)
        else
          100 + (if utcDay p.2 = 1 then 15 else 0)
      unit := "kWh" }

/-! ## Derived notions used to state the properties -/

/-- The local minute-of-day `unitRateFor`/`carbonFor` compute (`HH*60 + MM`). -/
def localMinutes (t : Int) (tz : Timezone) : Int :=
  (getLocalYMDAndHM t tz).HH * 60 + (getLocalYMDAndHM t tz).MM

/-- The local weekday the resolvers pass to `dayMatches`. -/
def localWeekday (t : Int) (tz : Timezone) : Int :=
  (getLocalYMDAndHM t tz).weekday

/-- A tariff window passes at a given minute and weekday: day filter and
containment both hold. -/
def windowPasses (minutes weekday : Int) (w : TariffWindow) : Bool :=
  dayMatches w.days weekday &&
    containsMin (hhmmToMinutes w.fromHHmm) (hhmmToMinutes w.toHHmm) minutes

/-- A carbon rule passes at a given minute and weekday. -/
def rulePasses (minutes weekday : Int) (r : CarbonCurveRule) : Bool :=
  dayMatches r.days weekday &&
    containsMin (hhmmToMinutes r.fromHHmm) (hhmmToMinutes r.toHHmm) minutes

/-- Step size in minutes chosen by `generateReadings` for each utility. -/
def stepMinutesOf (u : GenUtility) : Int :=
  if u = GenUtility.electricity then 30 else 1440

/-- The exact (noise-free) value formula of `generateReadings` for the `i`-th
point at instant `d`. -/
def noiseFreeValue (msin : ℚ → ℚ) (u : GenUtility) (i : ℕ) (d : Int) : ℚ :=
  if u = GenUtility.electricity then
    22/10 + msin ((i : ℚ) / 5) * (6/10) +
      (if 7 ≤ utcHours d ∧ utcHours d < 19 then 8/10 else 0)
  else
    100 + (if utcDay d = 1 then 15 else 0)

/-- How a tariff window and a carbon rule correspond for C8: identical time
strings and day filter, and the rate equal to the intensity. -/
def windowRuleAgree (w : TariffWindow) (r : CarbonCurveRule) : Prop :=
  w.fromHHmm = r.fromHHmm ∧ w.toHHmm = r.toHHmm ∧ w.days = r.days ∧
    w.unitRateGBPPerKWh = r.gCO2PerKWh

/-- A deliberately non-covering tariff (weekday daytime only), for exercising
the fallback path. -/
def uncoveredTariff : Tariff :=
  { id := "t_uncovered"
    name := "Uncovered tariff"
    standingChargeGBPPerDay := 0
    windows :=
      [ { fromHHmm := "07:00", toHHmm := "19:00", days := some Days.weekdays
          unitRateGBPPerKWh := 28/100, label := some "Peak only" } ] }

/-- A deliberately non-covering carbon profile (overnight only). -/
def uncoveredProfile : CarbonProfile :=
  { id := "p_uncovered"
    name := "Uncovered profile"
    rules :=
      [ { fromHHmm := "00:00", toHHmm := "06:00", days := some Days.all
          gCO2PerKWh := 180, label := some "Overnight only" } ] }

/-- A carbon profile mirroring `tou_elec_v1` window for window, with the
intensity numerically equal to the rate. -/
def touElecMirror : CarbonProfile :=
  { id := "tou_elec_mirror"
    name := "Mirror of TOU Electricity V1"
    rules :=
      [ { fromHHmm := "07:00", toHHmm := "19:00", days := some Days.weekdays
          gCO2PerKWh := 28/100, label := some "Peak (WD)" }
      , { fromHHmm := "19:00", toHHmm := "22:00", days := some Days.all
          gCO2PerKWh := 24/100, label := some "Shoulder" }
      , { fromHHmm := "22:00", toHHmm := "07:00", days := some Days.all
          gCO2PerKWh := 18/100, label := some "Off-peak" }
      , { fromHHmm := "07:00", toHHmm := "19:00", days := some Days.weekends
          gCO2PerKWh := 22/100, label := some "Peak (WE)" } ] }

/-! ## Helper lemmas -/

/-- The `unitRateFor` loop is a first-match scan: it returns the rate of the
first window (in list order) that passes. -/
theorem findRate_eq_find (minutes weekday : Int) (ws : List TariffWindow) :
    findRate minutes weekday ws =
      (ws.find? (windowPasses minutes weekday)).map (·.unitRateGBPPerKWh) := by
  induction ws with
  | nil => rfl
  | cons w ws ih =>
    have hcond : windowPasses minutes weekday w =
        (dayMatches w.days weekday &&
          containsMin (hhmmToMinutes w.fromHHmm) (hhmmToMinutes w.toHHmm) minutes) := rfl
    by_cases h : windowPasses minutes weekday w = true
    · rw [List.find?_cons_of_pos _ h]
      rw [hcond] at h
      simp [findRate, h]
    · rw [List.find?_cons_of_neg _ h]
      rw [hcond] at h
      simp [findRate, h, ih]

/-- The `carbonFor` loop is the same first-match scan over rules. -/
theorem findCarbon_eq_find (minutes weekday : Int) (rs : List CarbonCurveRule) :
    findCarbon minutes weekday rs =
      (rs.find? (rulePasses minutes weekday)).map (·.gCO2PerKWh) := by
  induction rs with
  | nil => rfl
  | cons r rs ih =>
    have hcond : rulePasses minutes weekday r =
        (dayMatches r.days weekday &&
          containsMin (hhmmToMinutes r.fromHHmm) (hhmmToMinutes r.toHHmm) minutes) := rfl
    by_cases h : rulePasses minutes weekday r = true
    · rw [List.find?_cons_of_pos _ h]
      rw [hcond] at h
      simp [findCarbon, h]
    · rw [List.find?_cons_of_neg _ h]
      rw [hcond] at h
      simp [findCarbon, h, ih]

/-- Peeling the first element off an arithmetic-progression map. -/
theorem range_map_shift (t s : Int) (m : ℕ) :
    (List.range (m + 1)).map (fun k : ℕ => t + (k : Int) * s) =
      t :: (List.range m).map (fun k : ℕ => (t + s) + (k : Int) * s) := by
  rw [List.range_succ_eq_map, List.map_cons, List.map_map]
  congr 1
  · simp
  · refine List.map_congr_left fun k _ => ?_
    simp only [Function.comp_apply]
    push_cast
    ring

/-- Closed form of the `range` loop: all instants `t + k·step` up to and
including `endUTC`. -/
theorem rangeGo_closed : ∀ (n : ℕ) (t e s : Int) (hs : 0 < s), (e + 1 - t).toNat ≤ n →
    rangeGo t e s hs =
      if t ≤ e then
        (List.range (((e - t) / s).toNat + 1)).map (fun k : ℕ => t + (k : Int) * s)
      else [] := by
  intro n
  induction n with
  | zero =>
    intro t e s hs hle
    rw [rangeGo]
    have hne : ¬ t ≤ e := by omega
    simp [hne]
  | succ n ih =>
    intro t e s hs hle
    rw [rangeGo]
    by_cases hte : t ≤ e
    · rw [dif_pos hte, if_pos hte, ih (t + s) e s hs (by omega)]
      by_cases h2 : t + s ≤ e
      · rw [if_pos h2]
        have hdiv : (e - t) / s = (e - (t + s)) / s + 1 := by
          have hmul := Int.add_mul_ediv_right (e - (t + s)) 1 (by omega : s ≠ 0)
          have heq : e - (t + s) + 1 * s = e - t := by ring
          rw [heq] at hmul
          omega
        have hnn : 0 ≤ (e - (t + s)) / s := Int.ediv_nonneg (by omega) (by omega)
        have htn : ((e - t) / s).toNat + 1 = (((e - (t + s)) / s).toNat + 1) + 1 := by
          omega
        conv_rhs => rw [htn, range_map_shift]
      · rw [if_neg h2]
        have h0 : (e - t) / s = 0 := Int.ediv_eq_zero_of_lt (by omega) (by omega)
        rw [h0]
        rw [show ((0 : Int).toNat + 1) = 0 + 1 from rfl, List.range_succ_eq_map]
        simp
    · rw [dif_neg hte, if_neg hte]

/-- Closed form of `range` for a positive step. -/
theorem range_closed (startUTC endUTC stepMinutes : Int) (hs : 0 < stepMinutes) :
    range startUTC endUTC stepMinutes =
      if startUTC ≤ endUTC then
        (List.range (((endUTC - startUTC) / (stepMinutes * 60000)).toNat + 1)).map
          (fun k : ℕ => startUTC + (k : Int) * (stepMinutes * 60000))
      else [] := by
  have hp : 0 < stepMinutes * 60000 := by positivity
  rw [range, dif_pos hp]
  exact rangeGo_closed ((endUTC + 1 - startUTC).toNat) _ _ _ _ le_rfl

/-- `unitRateFor` unfolded to its match on the scan result. -/
theorem unitRateFor_eq_match (t : Int) (tz : Timezone) (tariff : Tariff) :
    unitRateFor t tz tariff =
      match findRate (localMinutes t tz) (localWeekday t tz) tariff.windows with
      | some r => some r
      | none => tariff.windows.getLast?.map (·.unitRateGBPPerKWh) := rfl

/-- `carbonFor` unfolded to its match on the scan result. -/
theorem carbonFor_eq_match (t : Int) (tz : Timezone) (profile : CarbonProfile) :
    carbonFor t tz profile =
      match findCarbon (localMinutes t tz) (localWeekday t tz) profile.rules with
      | some g => some g
      | none => profile.rules.getLast?.map (·.gCO2PerKWh) := rfl

/-- C1: for every minute-of-day and every window, the containment test is
half-open `start ≤ m < end` when `start ≤ end` and the wrapped disjunction
`m ≥ start ∨ m < end` when `start > end`; both scan loops return the value of
the first window (in list order) whose day filter and containment pass, and
`unitRateFor`/`carbonFor` return exactly that first match when one exists. -/
theorem window_containment_first_match :
    (∀ fromM toM m : Int,
        containsMin fromM toM m = true ↔
          (if fromM ≤ toM then fromM ≤ m ∧ m < toM else m ≥ fromM ∨ m < toM)) ∧
    (∀ (minutes weekday : Int) (ws : List TariffWindow),
        findRate minutes weekday ws =
          (ws.find? (windowPasses minutes weekday)).map (·.unitRateGBPPerKWh)) ∧
    (∀ (minutes weekday : Int) (rs : List CarbonCurveRule),
        findCarbon minutes weekday rs =
          (rs.find? (rulePasses minutes weekday)).map (·.gCO2PerKWh)) ∧
    (∀ (t : Int) (tz : Timezone) (tariff : Tariff),
        unitRateFor t tz tariff =
          match tariff.windows.find? (windowPasses (localMinutes t tz) (localWeekday t tz)) with
          | some w => some w.unitRateGBPPerKWh
          | none => tariff.windows.getLast?.map (·.unitRateGBPPerKWh)) ∧
    (∀ (t : Int) (tz : Timezone) (profile : CarbonProfile),
        carbonFor t tz profile =
          match profile.rules.find? (rulePasses (localMinutes t tz) (localWeekday t tz)) with
          | some r => some r.gCO2PerKWh
          | none => profile.rules.getLast?.map (·.gCO2PerKWh)) := by
  refine ⟨fun fromM toM m => ?_, findRate_eq_find, findCarbon_eq_find,
    fun t tz tariff => ?_, fun t tz profile => ?_⟩
  · by_cases h : fromM ≤ toM <;> simp [containsMin, h]
  · rw [unitRateFor_eq_match, findRate_eq_find]
    cases tariff.windows.find? (windowPasses (localMinutes t tz) (localWeekday t tz)) <;> rfl
  · rw [carbonFor_eq_match, findCarbon_eq_find]
    cases profile.rules.find? (rulePasses (localMinutes t tz) (localWeekday t tz)) <;> rfl

/-- C2: the day filter accepts every weekday under `all`, exactly the
non-{0,6} weekdays under `weekdays`, and exactly {0,6} under `weekends`. -/
theorem day_filter_correct :
    ∀ weekday : Int,
      dayMatches (some Days.all) weekday = true ∧
      (dayMatches (some Days.weekdays) weekday = true ↔ ¬(weekday = 0 ∨ weekday = 6)) ∧
      (dayMatches (some Days.weekends) weekday = true ↔ (weekday = 0 ∨ weekday = 6)) := by
  intro weekday
  refine ⟨rfl, ?_, ?_⟩ <;> simp [dayMatches]

/-- C10: a window whose optional `days` field is absent passes the day filter
for every weekday, exactly as `days = 'all'` does. -/
theorem absent_days_like_all :
    ∀ weekday : Int,
      dayMatches none weekday = true ∧
      dayMatches none weekday = dayMatches (some Days.all) weekday := by
  intro weekday
  exact ⟨rfl, rfl⟩

/-- C4: `2025-09-16T12:00:00Z` in `Europe/London` (BST) is local 13:00 on a
Tuesday and resolves through `tou_elec_v1` to the "Peak (WD)" window at 0.28;
`2025-09-20T23:30:00Z` is local 00:30 on a Sunday and resolves to the
"Off-peak" window at 0.18. -/
theorem scenario_rate_resolution :
    unitRateFor (epochMs 2025 9 16 12 0) europeLondon touElecV1 = some (28/100) ∧
    (touElecV1.windows.find? (windowPasses (localMinutes (epochMs 2025 9 16 12 0) europeLondon)
        (localWeekday (epochMs 2025 9 16 12 0) europeLondon))).bind (·.label) =
      some "Peak (WD)" ∧
    unitRateFor (epochMs 2025 9 20 23 30) europeLondon touElecV1 = some (18/100) ∧
    (touElecV1.windows.find? (windowPasses (localMinutes (epochMs 2025 9 20 23 30) europeLondon)
        (localWeekday (epochMs 2025 9 20 23 30) europeLondon))).bind (·.label) =
      some "Off-peak" := by
  have hmA : localMinutes (epochMs 2025 9 16 12 0) europeLondon = 780 := by decide
  have hwA : localWeekday (epochMs 2025 9 16 12 0) europeLondon = 2 := by decide
  have hmB : localMinutes (epochMs 2025 9 20 23 30) europeLondon = 30 := by decide
  have hwB : localWeekday (epochMs 2025 9 20 23 30) europeLondon = 0 := by decide
  refine ⟨?_, ?_, ?_, ?_⟩
  · rw [unitRateFor_eq_match, hmA, hwA]
    simp +decide [findRate, touElecV1]
  · rw [hmA, hwA]
    simp +decide [touElecV1, List.find?, windowPasses]
  · rw [unitRateFor_eq_match, hmB, hwB]
    simp +decide [findRate, touElecV1]
  · rw [hmB, hwB]
    simp +decide [touElecV1, List.find?, windowPasses]

/-- C3 counterexample: on a rule set whose window list is empty, the fallback
indexes `windows[-1]`; the JS property access on `undefined` throws, so no
number is returned at all — modelled as `none`. The claim's "for every rule
set ... never raise and return the last window's value" therefore fails at
this input. -/
theorem fallback_empty_counterexample :
    unitRateFor (epochMs 2025 9 16 12 0) europeLondon
        { id := "t_empty", name := "Empty tariff", standingChargeGBPPerDay := 0,
          windows := [] } = none ∧
    carbonFor (epochMs 2025 9 16 12 0) europeLondon
        { id := "p_empty", name := "Empty profile", rules := [] } = none :=
  ⟨rfl, rfl⟩

/-- C3 (amended): for every rule set with at least one window and every
instant whose local minute and weekday no window matches, `unitRateFor` and
`carbonFor` never fail and return the value of the last window in the list. -/
theorem fallback_last_window (t : Int) (tz : Timezone) (tariff : Tariff)
    (profile : CarbonProfile) (hw : tariff.windows ≠ []) (hr : profile.rules ≠ [])
    (hnoW : ∀ w ∈ tariff.windows,
      windowPasses (localMinutes t tz) (localWeekday t tz) w = false)
    (hnoR : ∀ r ∈ profile.rules,
      rulePasses (localMinutes t tz) (localWeekday t tz) r = false) :
    unitRateFor t tz tariff = some ((tariff.windows.getLast hw).unitRateGBPPerKWh) ∧
    carbonFor t tz profile = some ((profile.rules.getLast hr).gCO2PerKWh) := by
  constructor
  · rw [unitRateFor_eq_match, findRate_eq_find]
    have hf : tariff.windows.find? (windowPasses (localMinutes t tz) (localWeekday t tz))
        = none :=
      List.find?_eq_none.mpr fun w hmem => by simp [hnoW w hmem]
    rw [hf, List.getLast?_eq_getLast _ hw]
    rfl
  · rw [carbonFor_eq_match, findCarbon_eq_find]
    have hf : profile.rules.find? (rulePasses (localMinutes t tz) (localWeekday t tz))
        = none :=
      List.find?_eq_none.mpr fun r hmem => by simp [hnoR r hmem]
    rw [hf, List.getLast?_eq_getLast _ hr]
    rfl

/-- Witness for the amended C3: Sunday local noon matches neither the
weekday-only tariff window nor the overnight-only carbon rule, and both
resolvers return their (single, hence last) window's value. -/
theorem fallback_last_window_witness :
    (uncoveredTariff.windows ≠ [] ∧
      ∀ w ∈ uncoveredTariff.windows,
        windowPasses (localMinutes (epochMs 2025 9 21 12 0) europeLondon)
          (localWeekday (epochMs 2025 9 21 12 0) europeLondon) w = false) ∧
    unitRateFor (epochMs 2025 9 21 12 0) europeLondon uncoveredTariff = some (28/100) ∧
    carbonFor (epochMs 2025 9 21 12 0) europeLondon uncoveredProfile = some 180 := by
  have hw : uncoveredTariff.windows ≠ [] := by decide
  have hr : uncoveredProfile.rules ≠ [] := by decide
  have hnoW : ∀ w ∈ uncoveredTariff.windows,
      windowPasses (localMinutes (epochMs 2025 9 21 12 0) europeLondon)
        (localWeekday (epochMs 2025 9 21 12 0) europeLondon) w = false := by decide
  have hnoR : ∀ r ∈ uncoveredProfile.rules,
      rulePasses (localMinutes (epochMs 2025 9 21 12 0) europeLondon)
        (localWeekday (epochMs 2025 9 21 12 0) europeLondon) r = false := by decide
  have h := fallback_last_window (epochMs 2025 9 21 12 0) europeLondon
    uncoveredTariff uncoveredProfile hw hr hnoW hnoR
  exact ⟨⟨hw, hnoW⟩, h.1.trans rfl, h.2.trans rfl⟩

/-- C9: with an empty window/rule list the defensive fallback dereferences an
absent element and fails to produce a number (`none`); with any non-empty
list the resolvers always produce a number. -/
theorem empty_rule_list_fails :
    (∀ (t : Int) (tz : Timezone) (i n : String) (sc : ℚ),
        unitRateFor t tz ⟨i, n, sc, []⟩ = none) ∧
    (∀ (t : Int) (tz : Timezone) (i n : String),
        carbonFor t tz ⟨i, n, []⟩ = none) ∧
    (∀ (t : Int) (tz : Timezone) (tariff : Tariff), tariff.windows ≠ [] →
        (unitRateFor t tz tariff).isSome = true) ∧
    (∀ (t : Int) (tz : Timezone) (profile : CarbonProfile), profile.rules ≠ [] →
        (carbonFor t tz profile).isSome = true) := by
  refine ⟨fun t tz i n sc => rfl, fun t tz i n => rfl,
    fun t tz tariff hne => ?_, fun t tz profile hne => ?_⟩
  · rw [unitRateFor_eq_match]
    cases hf : findRate (localMinutes t tz) (localWeekday t tz) tariff.windows with
    | some r => rfl
    | none => simp [List.getLast?_eq_getLast _ hne]
  · rw [carbonFor_eq_match]
    cases hf : findCarbon (localMinutes t tz) (localWeekday t tz) profile.rules with
    | some g => rfl
    | none => simp [List.getLast?_eq_getLast _ hne]

/-- Witness for C9's non-empty half at the fixture rule sets. -/
theorem empty_rule_list_fails_witness :
    (touElecV1.windows ≠ [] ∧
      (unitRateFor (epochMs 2025 9 16 12 0) europeLondon touElecV1).isSome = true) ∧
    (ukGridProfileV1.rules ≠ [] ∧
      (carbonFor (epochMs 2025 9 16 12 0) europeLondon ukGridProfileV1).isSome = true) := by
  have hw : touElecV1.windows ≠ [] := by decide
  have hr : ukGridProfileV1.rules ≠ [] := by decide
  exact ⟨⟨hw, empty_rule_list_fails.2.2.1 _ europeLondon touElecV1 hw⟩,
    ⟨hr, empty_rule_list_fails.2.2.2 _ europeLondon ukGridProfileV1 hr⟩⟩

/-- The timestamps of the generated readings are exactly the `range` points. -/
theorem generateReadings_ts (msin : ℚ → ℚ) (m : String) (u : GenUtility) (f t : Int) :
    (generateReadings msin m u f t).map (·.ts) = range f t (stepMinutesOf u) := by
  have hstep : (if u = GenUtility.electricity then (30 : Int) else 1440) = stepMinutesOf u := rfl
  simp only [generateReadings, hstep, List.map_map]
  exact List.enum_map_snd _

/-- `range` is empty when the end precedes the start. -/
theorem range_of_lt (startUTC endUTC stepMinutes : Int) (h : endUTC < startUTC) :
    range startUTC endUTC stepMinutes = [] := by
  rw [range]
  split
  · rw [rangeGo, dif_neg (by omega)]
  · rfl

/-- The step is positive for both utility classes. -/
theorem stepMinutesOf_pos (u : GenUtility) : 0 < stepMinutesOf u := by
  cases u <;> decide

/-- C5: for `fromInstant ≤ toInstant` the generated readings carry exactly the
step boundaries `from + k·step` (step 30 minutes for electricity, 1440
otherwise) for every k with `from + k·step ≤ to`, in order — the closed
interval includes both endpoints; in particular the 2025-01-01T00:00Z to
01:00Z electricity call yields exactly the three boundaries :00, :30, :00. -/
theorem reading_boundaries :
    (∀ (msin : ℚ → ℚ) (m : String) (u : GenUtility) (f t : Int), f ≤ t →
        (generateReadings msin m u f t).map (·.ts) =
          (List.range (((t - f) / (stepMinutesOf u * 60000)).toNat + 1)).map
            (fun k : ℕ => f + (k : Int) * (stepMinutesOf u * 60000)) ∧
        ∀ x : Int, (x ∈ (generateReadings msin m u f t).map (·.ts) ↔
          ∃ k : ℕ, x = f + (k : Int) * (stepMinutesOf u * 60000) ∧ x ≤ t)) ∧
    (∀ msin : ℚ → ℚ,
        (generateReadings msin "m1" GenUtility.electricity (epochMs 2025 1 1 0 0)
            (epochMs 2025 1 1 1 0)).map (·.ts) =
          [epochMs 2025 1 1 0 0, epochMs 2025 1 1 0 30, epochMs 2025 1 1 1 0]) := by
  have hmain : ∀ (msin : ℚ → ℚ) (m : String) (u : GenUtility) (f t : Int), f ≤ t →
      (generateReadings msin m u f t).map (·.ts) =
        (List.range (((t - f) / (stepMinutesOf u * 60000)).toNat + 1)).map
          (fun k : ℕ => f + (k : Int) * (stepMinutesOf u * 60000)) := by
    intro msin m u f t hft
    rw [generateReadings_ts, range_closed _ _ _ (stepMinutesOf_pos u), if_pos hft]
  refine ⟨fun msin m u f t hft => ⟨hmain msin m u f t hft, fun x => ?_⟩, fun msin => ?_⟩
  · rw [hmain msin m u f t hft]
    have hs : (0 : Int) < stepMinutesOf u * 60000 := by
      have := stepMinutesOf_pos u
      positivity
    simp only [List.mem_map, List.mem_range]
    constructor
    · rintro ⟨k, hk, rfl⟩
      refine ⟨k, rfl, ?_⟩
      have hk' : (k : Int) ≤ (t - f) / (stepMinutesOf u * 60000) := by
        have hnn : 0 ≤ (t - f) / (stepMinutesOf u * 60000) :=
          Int.ediv_nonneg (by omega) (by omega)
        omega
      have := (Int.le_ediv_iff_mul_le hs).mp hk'
      omega
    · rintro ⟨k, rfl, hle⟩
      refine ⟨k, ?_, rfl⟩
      have hmul : (k : Int) * (stepMinutesOf u * 60000) ≤ t - f := by omega
      have hk' := (Int.le_ediv_iff_mul_le hs).mpr hmul
      have hnn : 0 ≤ (t - f) / (stepMinutesOf u * 60000) :=
        Int.ediv_nonneg (by omega) (by omega)
      omega
  · rw [generateReadings_ts, range_closed _ _ _ (by decide)]
    decide

/-- Witness for C5 at a 30-minute electricity window. -/
theorem reading_boundaries_witness :
    epochMs 2025 1 1 0 0 ≤ epochMs 2025 1 1 0 30 ∧
    (generateReadings (fun _ => 0) "m2" GenUtility.electricity (epochMs 2025 1 1 0 0)
        (epochMs 2025 1 1 0 30)).map (·.ts) =
      (List.range (((epochMs 2025 1 1 0 30 - epochMs 2025 1 1 0 0) /
          (stepMinutesOf GenUtility.electricity * 60000)).toNat + 1)).map
        (fun k : ℕ => epochMs 2025 1 1 0 0 +
          (k : Int) * (stepMinutesOf GenUtility.electricity * 60000)) :=
  ⟨by decide, (reading_boundaries.1 (fun _ => 0) "m2" GenUtility.electricity
    (epochMs 2025 1 1 0 0) (epochMs 2025 1 1 0 30) (by decide)).1⟩

/-- C6 counterexample: with `toInstant` strictly before `fromInstant` the
source raises nothing — `range`'s loop body never runs, and `generateReadings`
returns the empty list as an ordinary result. No `InvalidRange` (or any other
failure) exists on this path. -/
theorem invalid_range_counterexample :
    generateReadings (fun _ => 0) "m1" GenUtility.electricity (epochMs 2025 1 2 0 0)
      (epochMs 2025 1 1 0 0) = [] := by
  simp [generateReadings, range_of_lt _ _ _ (by decide : epochMs 2025 1 1 0 0 <
    epochMs 2025 1 2 0 0)]

/-- C6 (amended): for every pair of instants with `toInstant < fromInstant`,
`generateReadings` does not fail: it returns the empty list of readings. -/
theorem generate_empty_of_invalid_range (msin : ℚ → ℚ) (m : String) (u : GenUtility)
    (f t : Int) (h : t < f) : generateReadings msin m u f t = [] := by
  simp [generateReadings, range_of_lt _ _ _ h]

/-- Witness for the amended C6. -/
theorem generate_empty_of_invalid_range_witness :
    epochMs 2025 1 1 0 0 < epochMs 2025 1 2 0 0 ∧
    generateReadings (fun _ => 0) "m9" GenUtility.gas (epochMs 2025 1 2 0 0)
      (epochMs 2025 1 1 0 0) = [] :=
  ⟨by decide, generate_empty_of_invalid_range (fun _ => 0) "m9" GenUtility.gas
    (epochMs 2025 1 2 0 0) (epochMs 2025 1 1 0 0) (by decide)⟩

/-- C7 counterexample: `generateReadings` contains no random term — its whole
output, values included, is the fixed sequence below, fully determined by the
arguments (and the pure `Math.sin` function). Repeated calls with these
arguments provably return this same value sequence, refuting "two calls with
identical arguments are not guaranteed to produce identical value sequences".
(The `Math.random()` jitter the spec describes exists only in the static
`starterReadings` fixture of `starter-data.ts`, not in `generateReadings`.) -/
theorem no_noise_counterexample :
    generateReadings (fun _ => 1/2) "m1" GenUtility.electricity (epochMs 2025 1 1 0 0)
        (epochMs 2025 1 1 1 0) =
      [ ⟨"m1", epochMs 2025 1 1 0 0, 5/2, "kWh"⟩
      , ⟨"m1", epochMs 2025 1 1 0 30, 5/2, "kWh"⟩
      , ⟨"m1", epochMs 2025 1 1 1 0, 5/2, "kWh"⟩ ] := by
  have hr : range 1735689600000 1735693200000 30 =
      [1735689600000, 1735691400000, 1735693200000] := by
    rw [range_closed _ _ _ (by norm_num)]
    decide
  simp only [generateReadings]
  norm_num [epochMs, daysFromCivil]
  rw [hr]
  norm_num [List.enum, List.enumFrom, utcHours]

/-- C7 (amended): `generateReadings` is fully deterministic — two calls with
identical arguments return identical sequences, and every reading's value is
exactly the closed-form diurnal/weekly formula, with no noise term. -/
theorem generate_deterministic :
    (∀ (msin : ℚ → ℚ) (m : String) (u : GenUtility) (f t : Int),
        generateReadings msin m u f t = generateReadings msin m u f t) ∧
    (∀ (msin : ℚ → ℚ) (m : String) (u : GenUtility) (f t : Int),
        generateReadings msin m u f t =
          (range f t (stepMinutesOf u)).enum.map fun p =>
            ⟨m, p.2, noiseFreeValue msin u p.1 p.2, "kWh"⟩) :=
  ⟨fun _ _ _ _ _ => rfl, fun _ _ _ _ _ => rfl⟩

/-- Corresponding windows and rules pass the filters identically. -/
theorem passes_agree (minutes weekday : Int) {w : TariffWindow} {r : CarbonCurveRule}
    (h : windowRuleAgree w r) :
    windowPasses minutes weekday w = rulePasses minutes weekday r := by
  obtain ⟨h1, h2, h3, h4⟩ := h
  simp [windowPasses, rulePasses, h1, h2, h3]

/-- The two scan loops agree on pointwise-corresponding lists. -/
theorem findRate_eq_findCarbon (minutes weekday : Int) {ws : List TariffWindow}
    {rs : List CarbonCurveRule} (h : List.Forall₂ windowRuleAgree ws rs) :
    findRate minutes weekday ws = findCarbon minutes weekday rs := by
  induction h with
  | nil => rfl
  | cons hd tl ih =>
    rw [findRate_eq_find, findCarbon_eq_find] at ih ⊢
    rw [List.find?_cons, List.find?_cons, ← passes_agree minutes weekday hd]
    cases hp : windowPasses minutes weekday _ with
    | true => simpa using hd.2.2.2
    | false => exact ih

/-- The two fallbacks agree on pointwise-corresponding lists. -/
theorem getLast_agree {ws : List TariffWindow} {rs : List CarbonCurveRule}
    (h : List.Forall₂ windowRuleAgree ws rs) :
    ws.getLast?.map (·.unitRateGBPPerKWh) = rs.getLast?.map (·.gCO2PerKWh) := by
  induction h with
  | nil => rfl
  | cons hd tl ih =>
    rename_i w r ws' rs'
    cases tl with
    | nil => simpa using hd.2.2.2
    | cons hd' tl' =>
      rw [List.getLast?_cons_cons, List.getLast?_cons_cons]
      exact ih

/-- The selected positions agree on pointwise-corresponding lists. -/
theorem findIdx_agree (minutes weekday : Int) {ws : List TariffWindow}
    {rs : List CarbonCurveRule} (h : List.Forall₂ windowRuleAgree ws rs) :
    ws.findIdx (windowPasses minutes weekday) = rs.findIdx (rulePasses minutes weekday) := by
  induction h with
  | nil => rfl
  | cons hd tl ih =>
    rw [List.findIdx_cons, List.findIdx_cons, ← passes_agree minutes weekday hd, ih]

/-- C8: for rule lists whose windows agree pairwise on `(from, to, days)` and
whose rate equals the corresponding intensity, `unitRateFor` and `carbonFor`
select the same window position and return equal values, at every timestamp
and timezone. -/
theorem resolver_equivalence (t : Int) (tz : Timezone) (tariff : Tariff)
    (profile : CarbonProfile)
    (h : List.Forall₂ windowRuleAgree tariff.windows profile.rules) :
    tariff.windows.findIdx (windowPasses (localMinutes t tz) (localWeekday t tz)) =
      profile.rules.findIdx (rulePasses (localMinutes t tz) (localWeekday t tz)) ∧
    unitRateFor t tz tariff = carbonFor t tz profile := by
  refine ⟨findIdx_agree _ _ h, ?_⟩
  rw [unitRateFor_eq_match, carbonFor_eq_match,
    findRate_eq_findCarbon (localMinutes t tz) (localWeekday t tz) h]
  cases findCarbon (localMinutes t tz) (localWeekday t tz) profile.rules with
  | some g => rfl
  | none => simp [getLast_agree h]

/-- Witness for C8: `tou_elec_v1` against its mirrored carbon profile. -/
theorem resolver_equivalence_witness :
    List.Forall₂ windowRuleAgree touElecV1.windows touElecMirror.rules ∧
    unitRateFor (epochMs 2025 9 16 12 0) europeLondon touElecV1 =
      carbonFor (epochMs 2025 9 16 12 0) europeLondon touElecMirror := by
  have hrel : List.Forall₂ windowRuleAgree touElecV1.windows touElecMirror.rules := by
    simp [touElecV1, touElecMirror, List.forall₂_cons, windowRuleAgree]
  exact ⟨hrel, (resolver_equivalence (epochMs 2025 9 16 12 0) europeLondon
    touElecV1 touElecMirror hrel).2⟩

end MeterApi
